import Mathlib

/-!
# Verification of the NuHeat node server's coordination and reconciliation logic

Shallow embedding of `nodeserver.js` and the node classes
(`ControllerNode.js`, `ThermostatNode_F.js`, `ThermostatNode_C.js`).
JS objects of string parameters become association lists in property order,
the hub and vendor collaborators become explicit oracles, and side effects
(logging, vendor calls, driver writes, node registration) become an explicit
effect trace.
-/

namespace NuHeat

/-- A JavaScript `Error` value as observed by the handlers: its `message`
and `stack` properties. -/
structure JsErr where
  message : String
  stack : String
deriving DecidableEq

/-! ## Config reconciliation: `initializeCustomParams` in `nodeserver.js` -/

/-- A JS object holding string parameters (such as `config.customParams`),
as an association list in property order. -/
abbrev StrMap := List (String × String)

/-- `Object.keys(m)`: the property names in order. -/
def keys (m : StrMap) : List String := m.map Prod.fst

/-- The JS `in` operator: does the object have the property? -/
def hasKey (m : StrMap) (k : String) : Bool := (keys m).contains k

/-- Property access `m[k]`: the value when present, `undefined` (`none`)
otherwise. -/
def getVal (m : StrMap) (k : String) : Option String :=
  (m.find? (fun p => p.1 == k)).map Prod.snd

/-- JS truthiness of a string-or-undefined value: `undefined` and the empty
string are falsy, every other string is truthy. -/
def truthy : Option String → Bool
  | none => false
  | some s => !(s == "")

/-- The `defaultParams` object of `nodeserver.js`. -/
def defaultParams : StrMap :=
  [("Username", "john@doe.net"), ("Password", "password"), ("Scale", "Fahrenheit")]

/-- `initializeCustomParams`' `differentKeys`:
`defaultParamKeys.concat(currentParamKeys).filter(key => !(key in defaultParams) || !(key in currentParams))`. -/
def differentKeys (defaults current : StrMap) : List String :=
  (keys defaults ++ keys current).filter
    (fun k => !(hasKey defaults k) || !(hasKey current k))

/-- The value assigned to `customParams[key]` in the rewrite loop:
`currentParams[key] ? currentParams[key] : defaultParams[key]` (the loop runs
only over `defaultParamKeys`, so `defaultParams[key]` is always defined
there). -/
def mergeVal (defaults current : StrMap) (k : String) : String :=
  if truthy (getVal current k) then (getVal current k).getD ""
  else (getVal defaults k).getD ""

/-- The `customParams` object the rewrite branch builds by iterating over
`defaultParamKeys`. -/
def mergedParams (defaults current : StrMap) : StrMap :=
  (keys defaults).map (fun k => (k, mergeVal defaults current k))

/-- `initializeCustomParams(currentParams)`: `some m` means the rewrite branch
was taken and `poly.saveCustomParams(m)` was called (persistence signaled);
`none` means `differentKeys` was empty and nothing was saved. -/
def initializeCustomParams (defaults current : StrMap) : Option StrMap :=
  if (differentKeys defaults current).isEmpty then none
  else some (mergedParams defaults current)

/-- The spec's §4.4 `reconcile(current, defaults) -> merged` as realised by
the code: the mapping persisted when a rewrite is signaled, the input
unchanged otherwise. -/
def reconcile (defaults current : StrMap) : StrMap :=
  (initializeCustomParams defaults current).getD current

theorem keys_mergedParams (d c : StrMap) : keys (mergedParams d c) = keys d := by
  simp [mergedParams, keys]

theorem hasKey_mergedParams (d c : StrMap) (k : String) :
    hasKey (mergedParams d c) k = hasKey d k := by
  simp [hasKey, keys_mergedParams]

theorem differentKeys_mergedParams (d c : StrMap) :
    differentKeys d (mergedParams d c) = [] := by
  apply List.filter_eq_nil_iff.mpr
  intro k hk
  have hkd : k ∈ keys d := by
    rcases List.mem_append.mp hk with h | h
    · exact h
    · rw [keys_mergedParams] at h; exact h
  have hd : hasKey d k = true := by
    simpa [hasKey] using List.elem_eq_true_of_mem hkd
  simp [hasKey_mergedParams, hd]

theorem getVal_map_pair (f : String → String) (l : List String) (k : String)
    (hk : k ∈ l) :
    getVal (l.map (fun x => (x, f x))) k = some (f k) := by
  induction l with
  | nil => cases hk
  | cons a t ih =>
    by_cases h : a = k
    · subst h
      simp [getVal]
    · have hne : (a == k) = false := by
        simpa using h
      have hmem : k ∈ t := by
        rcases List.mem_cons.mp hk with h' | h'
        · exact absurd h'.symm h
        · exact h'
      simpa [getVal, List.find?, hne] using ih hmem

theorem getVal_mergedParams (d c : StrMap) (k : String) (hk : k ∈ keys d) :
    getVal (mergedParams d c) k = some (mergeVal d c k) :=
  getVal_map_pair (mergeVal d c) (keys d) k hk

/-- C3 (amended): when `differentKeys` is non-empty, the rewrite branch runs:
`saveCustomParams` receives the merged mapping, whose key set is exactly the
default key set, and each key is mapped to its current value when that value
is present and truthy (non-empty), else to its default value. -/
theorem initializeCustomParams_rewrite (d c : StrMap)
    (h : differentKeys d c ≠ []) :
    initializeCustomParams d c = some (mergedParams d c) ∧
    keys (mergedParams d c) = keys d ∧
    ∀ k ∈ keys d, getVal (mergedParams d c) k = some (mergeVal d c k) := by
  refine ⟨?_, keys_mergedParams d c, fun k hk => getVal_mergedParams d c k hk⟩
  have : (differentKeys d c).isEmpty = false := by
    cases hdk : differentKeys d c with
    | nil => exact absurd hdk h
    | cons a t => simp
  simp [initializeCustomParams, this]

/-- C3 witness: a concrete current mapping missing two default keys triggers
the rewrite. -/
theorem initializeCustomParams_rewrite_witness :
    differentKeys defaultParams [("Username", "u")] ≠ [] ∧
    (initializeCustomParams defaultParams [("Username", "u")] =
        some (mergedParams defaultParams [("Username", "u")]) ∧
      keys (mergedParams defaultParams [("Username", "u")]) = keys defaultParams ∧
      ∀ k ∈ keys defaultParams,
        getVal (mergedParams defaultParams [("Username", "u")]) k =
          some (mergeVal defaultParams [("Username", "u")] k)) :=
  ⟨by decide, initializeCustomParams_rewrite defaultParams [("Username", "u")] (by decide)⟩

/-- C3 counterexample: with current = `{Username: ""}` the key "Username" is
present in current with value `""`, the rewrite branch runs, yet the merged
mapping takes the default `"john@doe.net"` rather than the current value `""`
— JS truthiness, not mere key presence, selects the current value. -/
theorem initializeCustomParams_counterexample :
    getVal [("Username", "")] "Username" = some "" ∧
    differentKeys defaultParams [("Username", "")] ≠ [] ∧
    getVal (mergedParams defaultParams [("Username", "")]) "Username" =
      some "john@doe.net" ∧
    getVal (mergedParams defaultParams [("Username", "")]) "Username" ≠ some "" := by
  refine ⟨by decide, by decide, by decide, by decide⟩

/-- C4: config reconciliation is idempotent: applying the merge a second time
to its own output changes nothing, and in particular signals no further
rewrite (no second `saveCustomParams`). -/
theorem reconcile_idempotent (d c : StrMap) :
    initializeCustomParams d (reconcile d c) = none ∧
    reconcile d (reconcile d c) = reconcile d c := by
  by_cases h : (differentKeys d c).isEmpty
  · have h1 : initializeCustomParams d c = none := by
      simp [initializeCustomParams, h]
    have h2 : reconcile d c = c := by simp [reconcile, h1]
    rw [h2]
    exact ⟨h1, h2⟩
  · have h1 : initializeCustomParams d c = some (mergedParams d c) := by
      simp [initializeCustomParams, h]
    have h2 : reconcile d c = mergedParams d c := by simp [reconcile, h1]
    have h3 : initializeCustomParams d (mergedParams d c) = none := by
      simp [initializeCustomParams, differentKeys_mergedParams]
    rw [h2]
    exact ⟨h3, by simp [reconcile, h3]⟩

/-! ## Effect traces

Side effects of the handlers, in program order: logging, vendor-client calls,
session-store reads, driver writes, node registration, pacing sleeps. -/

/-- A JS value written to a driver. -/
inductive JsVal where
  | num (q : ℚ)
  | str (s : String)
deriving DecidableEq

/-- The thermostat node variant created during discovery. -/
inductive Variant where
  | F
  | C
deriving DecidableEq

/-- One observable side effect. -/
inductive Eff where
  | logInfo (text : String)
  | logError (text : String)
  | logErrorFmt (fmt : String) (args : List String)
  | logErrorStack (err : JsErr) (text : String)
  | getStorage (key : String)
  | authenticate
  | listThermostats
  | fetchThermostat (address : String)
  | writeSetpoint (address : String) (value : ℚ)
  | addNode (variant : Variant) (address name : String)
  | setDriver (driver : String) (value : JsVal) (report : Bool)
  | sleep (ms : Nat)
  | queryStart (address : String)
deriving DecidableEq

def isSetDriver : Eff → Bool
  | .setDriver _ _ _ => true
  | _ => false

def isAuthenticate : Eff → Bool
  | .authenticate => true
  | _ => false

def isFetch : Eff → Bool
  | .fetchThermostat _ => true
  | _ => false

def isWriteSetpoint : Eff → Bool
  | .writeSetpoint _ _ => true
  | _ => false

/-- The driver table after a trace: each `setDriver` effect overwrites the
named driver in order. -/
def driversAfter (effs : List Eff) (d : String → JsVal) : String → JsVal :=
  effs.foldl
    (fun acc e =>
      match e with
      | .setDriver name v _ => fun k => if k = name then v else acc k
      | _ => acc) d

/-! ## Vendor unit conversions

`lib/nuheat.js` is not part of the sources under review; its conversion
helpers are modelled from the spec. -/

/-- Modelled from the spec: `CtoF` of the Vendor Client (`lib/nuheat.js`,
absent from the sources) converts a vendor Celsius reading to Fahrenheit, so
that the §8 round trip `0°C → 32°F → 0°C` holds. -/
def CtoF (c : ℚ) : ℚ := c * 9 / 5 + 32

/-- Modelled from the spec: `FtoJC` of the Vendor Client (`lib/nuheat.js`,
absent from the sources) converts an inbound Fahrenheit value to the vendor's
native Celsius unit, so that the §8 scenario `72°F → ≈22.2°C` holds. -/
def FtoJC (f : ℚ) : ℚ := (f - 32) * 5 / 9

/-! ## Thermostat nodes: `ThermostatNode_F.js` and `ThermostatNode_C.js` -/

/-- The vendor state of one thermostat, as consumed by `query`. -/
structure StatInfo where
  Temperature : ℚ
  SetPointTemp : ℚ
  OperatingMode : ℚ
  Heating : Bool
deriving DecidableEq

/-- `ThermostatNode_F.query`: `statInfo` is the resolved value of
`nuheat.thermostat(this.address)` (`none` models a null result). The
re-authentication on `none` is fire-and-forget: its outcome is not an input
of this function, so nothing after it can depend on it. -/
def queryF (address : String) (statInfo : Option StatInfo) : List Eff :=
  [Eff.getStorage "sessionId", Eff.fetchThermostat address] ++
  match statInfo with
  | none =>
    [Eff.logError "Not Authenticated... Re-Authenticating...", Eff.authenticate]
  | some s =>
    [Eff.logInfo (toString s.Temperature),
     Eff.logInfo (toString s.SetPointTemp),
     Eff.logInfo (toString s.OperatingMode),
     Eff.logInfo (toString s.Heating),
     Eff.logInfo ("Temperature: " ++ toString (CtoF s.Temperature)),
     Eff.logInfo ("SetPoint: " ++ toString (CtoF s.SetPointTemp)),
     Eff.setDriver "ST" (.num (CtoF s.Temperature)) true,
     Eff.setDriver "CLISPH" (.num (CtoF s.SetPointTemp)) true,
     Eff.setDriver "CLIMD" (.num s.OperatingMode) true,
     Eff.setDriver "CLIHCS" (.num 1) true]

/-- `ThermostatNode_F.setPointHeat`: log, convert the inbound value with
`FtoJC`, issue the vendor write, then immediately set the local CLISPH driver
to the unconverted inbound value. -/
def setPointHeatF (address : String) (value : ℚ) : List Eff :=
  [Eff.logInfo ("setPointHeat: " ++ toString value),
   Eff.writeSetpoint address (FtoJC value),
   Eff.setDriver "CLISPH" (.num value) true]

/-- `ThermostatNode_C.setPointHeat`: the Celsius variant's handler only logs
the inbound value. -/
def setPointHeatC (value : ℚ) : List Eff :=
  [Eff.logInfo ("setPointHeat: " ++ toString value)]

/-- C8: when the per-device fetch resolves null, `query` writes no driver
values this cycle, triggers `authenticate()` exactly once (fire-and-forget:
its result is not an input of `queryF`, so it cannot gate anything), and does
not retry the fetch in the same cycle. -/
theorem queryF_session_expiry (address : String) :
    (queryF address none).countP isSetDriver = 0 ∧
    (queryF address none).countP isAuthenticate = 1 ∧
    (queryF address none).countP isFetch = 1 ∧
    (queryF address none).getLast? = some Eff.authenticate := by
  refine ⟨rfl, rfl, rfl, rfl⟩

/-- C9 counterexample: the claim quantifies over either variant, but on the
Celsius variant the inbound setpoint 72 produces no vendor write and no
driver write at all — only a log line. -/
theorem setPointHeatC_no_write :
    (setPointHeatC 72).countP isWriteSetpoint = 0 ∧
    (setPointHeatC 72).countP isSetDriver = 0 := by
  refine ⟨rfl, rfl⟩

/-- C9 (amended): on the Fahrenheit variant, the setpoint command converts
the inbound value to the vendor's Celsius unit, issues the vendor write with
the converted value, and immediately sets CLISPH to the unconverted inbound
value — concretely, 72 sends 200/9 ≈ 22.2; the Celsius variant only logs. -/
theorem setPointHeatF_spec (address : String) (value : ℚ) :
    setPointHeatF address value =
      [Eff.logInfo ("setPointHeat: " ++ toString value),
       Eff.writeSetpoint address ((value - 32) * 5 / 9),
       Eff.setDriver "CLISPH" (.num value) true] ∧
    FtoJC 72 = 200 / 9 ∧
    (setPointHeatC value).countP isWriteSetpoint = 0 := by
  refine ⟨rfl, by norm_num [FtoJC], rfl⟩

/-- C10: handling CLISPH on a Celsius device only logs the inbound value:
no vendor write is issued and the driver table is left unchanged, for every
inbound value. -/
theorem setPointHeatC_frame (value : ℚ) :
    setPointHeatC value = [Eff.logInfo ("setPointHeat: " ++ toString value)] ∧
    (∀ d : String → JsVal, driversAfter (setPointHeatC value) d = d) ∧
    (setPointHeatC value).countP isWriteSetpoint = 0 := by
  refine ⟨rfl, fun d => rfl, rfl⟩

/-! ## Discovery: `Controller.onDiscover` in `ControllerNode.js`

The call sequencing of the source is kept faithfully. The statement
`await this.nuheat.authenticate().then(tstats = await this.nuheat.thermostats())`
first calls `authenticate()`, then — while evaluating the argument of
`.then` — awaits `thermostats()` and assigns its value to `tstats`, and only
then awaits the `.then` chain, whose settlement is that of `authenticate()`
(a non-function `.then` argument is ignored). Hence:
* if `thermostats()` rejects, the single catch logs and `tstats` stays `{}`;
* if `thermostats()` resolves but `authenticate()` rejects, the catch logs —
  but `tstats` already holds the listing, and execution continues past the
  `try`/`catch` into the device-creation loop. -/

/-- One vendor-listed thermostat. -/
structure Tstat where
  Room : String
  SerialNumber : Nat
deriving DecidableEq

/-- One vendor thermostat group. -/
structure TGroup where
  groupName : String
  Thermostats : List Tstat
deriving DecidableEq

/-- The JS value `thermostats()` resolves to: nullish, or an object whose
`Groups` property may be absent. The initial `tstats = {}` is `obj none`. -/
inductive TstatsVal where
  | nullish
  | obj (Groups : Option (List TGroup))
deriving DecidableEq

/-- The external collaborators of one discovery pass, as oracles:
the settlement of `authenticate()`, the settlement of `thermostats()`, the
value `getCustomParam('Scale')` returns at its n-th read, and the outcome of
the n-th `addNode` call. -/
structure DiscoverEnv where
  auth : Except JsErr Unit
  thermostats : Except JsErr TstatsVal
  scaleAt : Nat → String
  addNodeAt : Nat → Except JsErr Unit

/-- Instrumented state of one discovery pass: how many times the scale
parameter has been read, how many `addNode` calls were made, how many
per-device registration failures were caught and logged, the successfully
registered nodes (variant and address, in order), and the effect trace. -/
structure DiscoverState where
  scaleReads : Nat
  addNodeCalls : Nat
  failLogged : Nat
  created : List (Variant × String)
  effs : List Eff
deriving DecidableEq

/-- The body of the inner `for (const stat of group.Thermostats)` loop: read
the scale parameter, construct the matching variant, attempt `addNode` in a
per-device `try`/`catch`, then the mandatory 1000 ms pacing sleep. -/
def processStat (env : DiscoverEnv) (st : DiscoverState) (stat : Tstat) :
    DiscoverState :=
  let address := toString stat.SerialNumber
  let scale := env.scaleAt st.scaleReads
  let variant := if scale == "Fahrenheit" then Variant.F else Variant.C
  let outcome := env.addNodeAt st.addNodeCalls
  { scaleReads := st.scaleReads + 1
    addNodeCalls := st.addNodeCalls + 1
    failLogged := st.failLogged + (match outcome with
      | .ok _ => 0
      | .error _ => 1)
    created := st.created ++ (match outcome with
      | .ok _ => [(variant, address)]
      | .error _ => [])
    effs := st.effs ++ [Eff.addNode variant address stat.Room] ++
      (match outcome with
        | .ok _ => [Eff.logInfo "Add node worked: "]
        | .error e => [Eff.logErrorStack e "Add node failed:"]) ++
      [Eff.sleep 1000] }

/-- The body of the outer `for (const group of groups)` loop. -/
def processGroup (env : DiscoverEnv) (st : DiscoverState) (g : TGroup) :
    DiscoverState :=
  g.Thermostats.foldl (processStat env)
    { st with effs := st.effs ++ [Eff.logInfo ("Group Name: " ++ g.groupName)] }

/-- `Controller.onDiscover`; the second component is the handler's own
settlement as seen by its caller (every throw site inside is caught, so it is
`.ok ()` on every path — which is exactly what the per-site `catch` blocks of
the source establish). The string argument of the `Thermostat Data:` log
abstracts `JSON.stringify(tstats)`. -/
def onDiscover (env : DiscoverEnv) : DiscoverState × Except JsErr Unit :=
  let st0 : DiscoverState :=
    ⟨0, 0, 0, [],
      [Eff.logInfo "Getting Thermostats", Eff.authenticate, Eff.listThermostats]⟩
  match env.thermostats with
  | .error _ =>
    -- `thermostats()` rejected while the `.then` argument was evaluated:
    -- the catch logs, `tstats` stays `{}`, `Groups` is undefined, no loop.
    ({ st0 with effs := st0.effs ++
        [Eff.logError "onDiscover(): Authenticate failed",
         Eff.logInfo "Thermostat Data: "] }, .ok ())
  | .ok v =>
    let st1 := match env.auth with
      | .error _ =>
        { st0 with effs := st0.effs ++
            [Eff.logError "onDiscover(): Authenticate failed"] }
      | .ok _ => st0
    let st2 := { st1 with effs := st1.effs ++ [Eff.logInfo "Thermostat Data: "] }
    match v with
    | .nullish =>
      ({ st2 with effs := st2.effs ++ [Eff.logError "No thermostats found."] }, .ok ())
    | .obj none => (st2, .ok ())
    | .obj (some groups) => (groups.foldl (processGroup env) st2, .ok ())

/-- Total number of vendor-listed thermostats across all groups. -/
def totalStats (gs : List TGroup) : Nat :=
  (gs.map (fun g => g.Thermostats.length)).sum

def isOkB : Except JsErr Unit → Bool
  | .ok _ => true
  | .error _ => false

/-- Number of successful `addNode` outcomes among the `n` calls starting at
call index `start`. -/
def succCount (env : DiscoverEnv) (start : Nat) : Nat → Nat
  | 0 => 0
  | n + 1 =>
    (if isOkB (env.addNodeAt start) then 1 else 0) + succCount env (start + 1) n

/-- Number of failing `addNode` outcomes among the `n` calls starting at
call index `start`. -/
def failCount (env : DiscoverEnv) (start : Nat) : Nat → Nat
  | 0 => 0
  | n + 1 =>
    (if isOkB (env.addNodeAt start) then 0 else 1) + failCount env (start + 1) n

theorem processStat_fields (env : DiscoverEnv) (st : DiscoverState) (stat : Tstat) :
    (processStat env st stat).addNodeCalls = st.addNodeCalls + 1 ∧
    (processStat env st stat).scaleReads = st.scaleReads + 1 ∧
    (processStat env st stat).created.length =
      st.created.length + (if isOkB (env.addNodeAt st.addNodeCalls) then 1 else 0) ∧
    (processStat env st stat).failLogged =
      st.failLogged + (if isOkB (env.addNodeAt st.addNodeCalls) then 0 else 1) := by
  cases h : env.addNodeAt st.addNodeCalls <;> simp [processStat, h, isOkB]

theorem foldl_processStat (env : DiscoverEnv) (stats : List Tstat) :
    ∀ st : DiscoverState,
      (stats.foldl (processStat env) st).addNodeCalls =
        st.addNodeCalls + stats.length ∧
      (stats.foldl (processStat env) st).scaleReads =
        st.scaleReads + stats.length ∧
      (stats.foldl (processStat env) st).created.length =
        st.created.length + succCount env st.addNodeCalls stats.length ∧
      (stats.foldl (processStat env) st).failLogged =
        st.failLogged + failCount env st.addNodeCalls stats.length := by
  induction stats with
  | nil => intro st; simp [succCount, failCount]
  | cons s rest ih =>
    intro st
    obtain ⟨h1, h2, h3, h4⟩ := ih (processStat env st s)
    obtain ⟨p1, p2, p3, p4⟩ := processStat_fields env st s
    refine ⟨?_, ?_, ?_, ?_⟩
    · simp only [List.foldl_cons, h1, p1, List.length_cons]; omega
    · simp only [List.foldl_cons, h2, p2, List.length_cons]; omega
    · simp only [List.foldl_cons, h3, p3, p1, List.length_cons, succCount]; omega
    · simp only [List.foldl_cons, h4, p4, p1, List.length_cons, failCount]; omega

theorem succCount_add (env : DiscoverEnv) :
    ∀ (m n start : Nat),
      succCount env start (m + n) =
        succCount env start m + succCount env (start + m) n := by
  intro m
  induction m with
  | zero => intro n start; simp [succCount]
  | succ m ih =>
    intro n start
    have hsh : m + 1 + n = (m + n) + 1 := by omega
    have hid : start + 1 + m = start + (m + 1) := by omega
    rw [hsh]
    simp only [succCount]
    rw [ih n (start + 1), hid]
    omega

theorem failCount_add (env : DiscoverEnv) :
    ∀ (m n start : Nat),
      failCount env start (m + n) =
        failCount env start m + failCount env (start + m) n := by
  intro m
  induction m with
  | zero => intro n start; simp [failCount]
  | succ m ih =>
    intro n start
    have hsh : m + 1 + n = (m + n) + 1 := by omega
    have hid : start + 1 + m = start + (m + 1) := by omega
    rw [hsh]
    simp only [failCount]
    rw [ih n (start + 1), hid]
    omega

theorem foldl_processGroup (env : DiscoverEnv) (gs : List TGroup) :
    ∀ st : DiscoverState,
      (gs.foldl (processGroup env) st).addNodeCalls =
        st.addNodeCalls + totalStats gs ∧
      (gs.foldl (processGroup env) st).scaleReads =
        st.scaleReads + totalStats gs ∧
      (gs.foldl (processGroup env) st).created.length =
        st.created.length + succCount env st.addNodeCalls (totalStats gs) ∧
      (gs.foldl (processGroup env) st).failLogged =
        st.failLogged + failCount env st.addNodeCalls (totalStats gs) := by
  induction gs with
  | nil => intro st; simp [totalStats, succCount, failCount]
  | cons g rest ih =>
    intro st
    obtain ⟨h1, h2, h3, h4⟩ := ih (processGroup env st g)
    have hstat := foldl_processStat env g.Thermostats
      { st with effs := st.effs ++ [Eff.logInfo ("Group Name: " ++ g.groupName)] }
    obtain ⟨q1, q2, q3, q4⟩ := hstat
    have htot : totalStats (g :: rest) = g.Thermostats.length + totalStats rest := by
      simp [totalStats]
    refine ⟨?_, ?_, ?_, ?_⟩
    · rw [List.foldl_cons, h1, htot]
      simp only [processGroup, q1]
      omega
    · rw [List.foldl_cons, h2, htot]
      simp only [processGroup, q2]
      omega
    · rw [List.foldl_cons, h3, htot, succCount_add env g.Thermostats.length (totalStats rest)]
      simp only [processGroup, q3, q1]
      omega
    · rw [List.foldl_cons, h4, htot, failCount_add env g.Thermostats.length (totalStats rest)]
      simp only [processGroup, q4, q1]
      omega

theorem counts_single_fail (env : DiscoverEnv) (k : Nat) :
    ∀ (n start : Nat),
      (∀ i, i < n → (isOkB (env.addNodeAt (start + i)) = false ↔ start + i = k)) →
      succCount env start n = n - (if start ≤ k ∧ k < start + n then 1 else 0) ∧
      failCount env start n = (if start ≤ k ∧ k < start + n then 1 else 0) := by
  intro n
  induction n with
  | zero =>
    intro start _
    have hc : ¬(start ≤ k ∧ k < start + 0) := by omega
    rw [if_neg hc]
    simp [succCount, failCount]
  | succ n ih =>
    intro start h
    have h0 := h 0 (by omega)
    simp only [Nat.add_zero] at h0
    have hrest : ∀ i, i < n →
        (isOkB (env.addNodeAt (start + 1 + i)) = false ↔ start + 1 + i = k) := by
      intro i hi
      have := h (i + 1) (by omega)
      have harith : start + (i + 1) = start + 1 + i := by omega
      rwa [harith] at this
    obtain ⟨hs, hf⟩ := ih (start + 1) hrest
    by_cases hk0 : start = k
    · have hfalse : isOkB (env.addNodeAt start) = false := h0.mpr hk0
      have e1 : succCount env start (n + 1) = succCount env (start + 1) n := by
        simp [succCount, hfalse]
      have e2 : failCount env start (n + 1) = 1 + failCount env (start + 1) n := by
        simp [failCount, hfalse]
      have hcout : start ≤ k ∧ k < start + (n + 1) := by omega
      have hcin : ¬(start + 1 ≤ k ∧ k < start + 1 + n) := by omega
      rw [e1, e2, hs, hf, if_neg hcin, if_pos hcout]
      omega
    · have htrue : isOkB (env.addNodeAt start) = true := by
        cases hb : isOkB (env.addNodeAt start)
        · exact absurd (h0.mp hb) hk0
        · rfl
      have e1 : succCount env start (n + 1) = 1 + succCount env (start + 1) n := by
        simp [succCount, htrue]
      have e2 : failCount env start (n + 1) = failCount env (start + 1) n := by
        simp [failCount, htrue]
      have hsame : (start ≤ k ∧ k < start + (n + 1)) ↔
          (start + 1 ≤ k ∧ k < start + 1 + n) := by omega
      rw [e1, e2, hs, hf]
      by_cases hc : start + 1 ≤ k ∧ k < start + 1 + n
      · rw [if_pos hc, if_pos (hsame.mpr hc)]
        omega
      · rw [if_neg hc, if_neg (fun hx => hc (hsame.mp hx))]
        omega

theorem onDiscover_counts (env : DiscoverEnv) (gs : List TGroup)
    (hts : env.thermostats = .ok (.obj (some gs))) :
    (onDiscover env).1.created.length = succCount env 0 (totalStats gs) ∧
    (onDiscover env).1.failLogged = failCount env 0 (totalStats gs) ∧
    (onDiscover env).1.scaleReads = totalStats gs ∧
    (onDiscover env).2 = .ok () := by
  have key : ∀ st : DiscoverState,
      st.addNodeCalls = 0 → st.scaleReads = 0 → st.failLogged = 0 →
      st.created = [] →
      (gs.foldl (processGroup env) st).created.length =
        succCount env 0 (totalStats gs) ∧
      (gs.foldl (processGroup env) st).failLogged =
        failCount env 0 (totalStats gs) ∧
      (gs.foldl (processGroup env) st).scaleReads = totalStats gs := by
    intro st h1 h2 h3 h4
    obtain ⟨g1, g2, g3, g4⟩ := foldl_processGroup env gs st
    rw [g3, g4, g2, h1, h2, h3, h4]
    simp
  cases hauth : env.auth with
  | ok u =>
    cases u
    have hred : onDiscover env =
        (gs.foldl (processGroup env)
          ⟨0, 0, 0, [],
            [Eff.logInfo "Getting Thermostats", Eff.authenticate,
              Eff.listThermostats] ++
              [Eff.logInfo "Thermostat Data: "]⟩, .ok ()) := by
      simp only [onDiscover, hts, hauth]
    rw [hred]
    exact ⟨(key _ rfl rfl rfl rfl).1, (key _ rfl rfl rfl rfl).2.1,
      (key _ rfl rfl rfl rfl).2.2, rfl⟩
  | error e =>
    have hred : onDiscover env =
        (gs.foldl (processGroup env)
          ⟨0, 0, 0, [],
            ([Eff.logInfo "Getting Thermostats", Eff.authenticate,
                Eff.listThermostats] ++
                [Eff.logError "onDiscover(): Authenticate failed"]) ++
              [Eff.logInfo "Thermostat Data: "]⟩, .ok ()) := by
      simp only [onDiscover, hts, hauth]
    rw [hred]
    exact ⟨(key _ rfl rfl rfl rfl).1, (key _ rfl rfl rfl rfl).2.1,
      (key _ rfl rfl rfl rfl).2.2, rfl⟩

/-- C6: when exactly the `k`-th of the `N` vendor-listed thermostat
registrations throws, the failure is caught and logged (exactly one
per-device failure log), the loop is not aborted, exactly `N - 1` devices are
registered, and `onDiscover` settles normally (no exception escapes). -/
theorem onDiscover_partial_failure (env : DiscoverEnv) (gs : List TGroup)
    (k : Nat)
    (hts : env.thermostats = .ok (.obj (some gs)))
    (_hauth : env.auth = .ok ())
    (hk : k < totalStats gs)
    (hfail : ∀ i, i < totalStats gs →
      (isOkB (env.addNodeAt i) = false ↔ i = k)) :
    (onDiscover env).1.created.length = totalStats gs - 1 ∧
    (onDiscover env).1.failLogged = 1 ∧
    (onDiscover env).2 = .ok () := by
  obtain ⟨hc1, hc2, _, hc4⟩ := onDiscover_counts env gs hts
  have hfail0 : ∀ i, i < totalStats gs →
      (isOkB (env.addNodeAt (0 + i)) = false ↔ 0 + i = k) := by
    intro i hi
    simpa using hfail i hi
  obtain ⟨hs, hf⟩ := counts_single_fail env k (totalStats gs) 0 hfail0
  have hcond : 0 ≤ k ∧ k < 0 + totalStats gs := by omega
  rw [if_pos hcond] at hs hf
  exact ⟨by rw [hc1, hs], by rw [hc2, hf], hc4⟩

/-- A concrete discovery pass with two vendor-listed thermostats where the
first registration throws. -/
def discoverOneFailEnv : DiscoverEnv :=
  { auth := .ok ()
    thermostats := .ok (.obj (some [⟨"Floor1", [⟨"Kitchen", 1⟩, ⟨"Bath", 2⟩]⟩]))
    scaleAt := fun _ => "Fahrenheit"
    addNodeAt := fun i => if i = 0 then .error ⟨"write refused", "trace"⟩ else .ok () }

/-- C6 witness: on the concrete two-thermostat pass whose first registration
throws, exactly one device is registered, one failure is logged, and
`onDiscover` settles normally. -/
theorem onDiscover_partial_failure_witness :
    (onDiscover discoverOneFailEnv).1.created.length = totalStats
      [⟨"Floor1", [⟨"Kitchen", 1⟩, ⟨"Bath", 2⟩]⟩] - 1 ∧
    (onDiscover discoverOneFailEnv).1.failLogged = 1 ∧
    (onDiscover discoverOneFailEnv).2 = .ok () :=
  onDiscover_partial_failure discoverOneFailEnv
    [⟨"Floor1", [⟨"Kitchen", 1⟩, ⟨"Bath", 2⟩]⟩] 0 rfl rfl (by decide)
    (by decide)

/-- A concrete discovery pass where `authenticate()` rejects but
`thermostats()` — already awaited while the `.then` argument was being
evaluated — resolved with one listed thermostat. -/
def discoverAuthFailEnv : DiscoverEnv :=
  { auth := .error ⟨"401 Unauthorized", "trace"⟩
    thermostats := .ok (.obj (some [⟨"Floor1", [⟨"Kitchen", 123⟩]⟩]))
    scaleAt := fun _ => "Fahrenheit"
    addNodeAt := fun _ => .ok () }

/-- C5 failing input: `authenticate()` fails, yet because
`await this.nuheat.thermostats()` was evaluated eagerly as the `.then`
argument, `tstats` already holds the listing when the catch fires, execution
continues past the `try`/`catch`, and a device IS created — the pass is not
aborted as the claim requires. The auth failure is still logged and nothing
escapes. -/
theorem onDiscover_auth_fail_still_creates :
    discoverAuthFailEnv.auth = .error ⟨"401 Unauthorized", "trace"⟩ ∧
    (onDiscover discoverAuthFailEnv).1.created = [(Variant.F, "123")] ∧
    Eff.logError "onDiscover(): Authenticate failed" ∈
      (onDiscover discoverAuthFailEnv).1.effs ∧
    (onDiscover discoverAuthFailEnv).2 = .ok () := by
  refine ⟨rfl, by decide, by decide, rfl⟩

/-- A concrete discovery pass in which the Scale parameter changes between
the two per-device reads. -/
def discoverMixedScaleEnv : DiscoverEnv :=
  { auth := .ok ()
    thermostats := .ok (.obj (some [⟨"Floor1", [⟨"Kitchen", 1⟩, ⟨"Bath", 2⟩]⟩]))
    scaleAt := fun n => if n = 0 then "Fahrenheit" else "Celsius"
    addNodeAt := fun _ => .ok () }

/-- C7 counterexample: `getCustomParam('Scale')` sits inside the per-stat
loop, so a single pass over two thermostats reads the scale twice (not once),
and a mid-pass change of the parameter yields one Fahrenheit and one Celsius
device in the same pass — mixed variants. -/
theorem onDiscover_scale_mixed_variants :
    (onDiscover discoverMixedScaleEnv).1.scaleReads = 2 ∧
    (onDiscover discoverMixedScaleEnv).1.scaleReads ≠ 1 ∧
    ((onDiscover discoverMixedScaleEnv).1.created.map Prod.fst) =
      [Variant.F, Variant.C] := by
  refine ⟨by decide, by decide, by decide⟩

/-- C7 (amended): the configured temperature scale is read once per
vendor-listed thermostat entry — `scaleReads` equals the total number of
entries — and the variant of each device is decided by its own read, so a
mid-pass scale change can produce mixed variants within one pass. -/
theorem onDiscover_scale_read_per_device (env : DiscoverEnv)
    (gs : List TGroup)
    (hts : env.thermostats = .ok (.obj (some gs))) :
    (onDiscover env).1.scaleReads = totalStats gs := by
  exact (onDiscover_counts env gs hts).2.2.1

/-- C7 amended witness: the two-thermostat pass reads the scale twice. -/
theorem onDiscover_scale_read_per_device_witness :
    (onDiscover discoverMixedScaleEnv).1.scaleReads = totalStats
      [⟨"Floor1", [⟨"Kitchen", 1⟩, ⟨"Bath", 2⟩]⟩] :=
  onDiscover_scale_read_per_device discoverMixedScaleEnv
    [⟨"Floor1", [⟨"Kitchen", 1⟩, ⟨"Bath", 2⟩]⟩] rfl

/-! ## Poll coordination: `doPoll` and the named poll lock in `nodeserver.js`

`lock = new AsyncLock({ timeout: 500 })` and `lock.acquire('poll', fn)` give
the contract: the callback `fn` runs only while holding the single named
lock, which is released when `fn` settles, and a trigger whose acquisition
times out never runs its callback at all. The callback of `doPoll` is a
synchronous function: on a short poll it calls `nodes[address].query()` for
each queryable node WITHOUT awaiting the returned promise. Each `query()`
runs only up to its first `await` before the callback moves on; the callback
then returns, the lock is released, and the initiated queries' vendor
fetches and driver writes are still pending and complete after release. The
transition system below models exactly this: passes are numbered as they
acquire the lock, `launch` records a query initiated by the pass holding the
lock, `release` frees the lock while the initiated work stays outstanding,
and `complete` retires one outstanding query at any later instant. -/

/-- Instrumented state of the poll coordinator: `pending` triggers waiting on
the lock, `running` locked callbacks currently executing, whether the lock is
held, the number of the next pass, `curPass` the pass whose callback is
executing (and holds the lock), and `asyncWork` the outstanding un-awaited
query work units, each tagged with the pass that initiated it. -/
structure PollState where
  pending : Nat
  running : Nat
  lockHeld : Bool
  nextId : Nat
  curPass : Option Nat
  asyncWork : List Nat
deriving DecidableEq

/-- One step of the poll coordinator: a trigger arrives (`poly.on('poll')` or
the shutdown path); a pending trigger acquires the free lock and its callback
starts as a new numbered pass; the executing callback initiates one un-awaited
`query()` (`launch`); the callback returns and the lock is released while the
initiated work remains outstanding (`release`); one outstanding query's
fetch/driver-write work completes, lock-independently (`complete`); or a
pending trigger's acquisition times out (`PollBusy`) and is dropped. -/
inductive PollStep : PollState → PollState → Prop
  | arrive (p r : Nat) (l : Bool) (n : Nat) (c : Option Nat) (w : List Nat) :
      PollStep ⟨p, r, l, n, c, w⟩ ⟨p + 1, r, l, n, c, w⟩
  | acquire (p r n : Nat) (c : Option Nat) (w : List Nat) :
      PollStep ⟨p + 1, r, false, n, c, w⟩ ⟨p, r + 1, true, n + 1, some n, w⟩
  | launch (p r n i : Nat) (w : List Nat) :
      PollStep ⟨p, r + 1, true, n, some i, w⟩ ⟨p, r + 1, true, n, some i, i :: w⟩
  | release (p r n i : Nat) (w : List Nat) :
      PollStep ⟨p, r + 1, true, n, some i, w⟩ ⟨p, r, false, n, none, w⟩
  | complete (p r : Nat) (l : Bool) (n : Nat) (c : Option Nat)
      (w₁ w₂ : List Nat) (i : Nat) :
      PollStep ⟨p, r, l, n, c, w₁ ++ i :: w₂⟩ ⟨p, r, l, n, c, w₁ ++ w₂⟩
  | timeout (p r : Nat) (l : Bool) (n : Nat) (c : Option Nat) (w : List Nat) :
      PollStep ⟨p + 1, r, l, n, c, w⟩ ⟨p, r, l, n, c, w⟩

/-- States the poll coordinator can reach from idle. -/
def PollReachable (s : PollState) : Prop :=
  Relation.ReflTransGen PollStep ⟨0, 0, false, 0, none, []⟩ s

/-- The pass tags of all reconciliation work in flight at an instant: the
executing locked callback, plus every outstanding un-awaited query. -/
def workInFlight (s : PollState) : List Nat :=
  (match s.curPass with
    | some i => [i]
    | none => []) ++ s.asyncWork

/-- The claim's reading of mutual exclusion: at any instant all in-flight
reconciliation work belongs to a single pass — the work two triggers cause
never overlaps in time. -/
def singlePassInFlight (s : PollState) : Prop :=
  ∀ i ∈ workInFlight s, ∀ j ∈ workInFlight s, i = j

/-- The inductive invariant: a locked callback is executing exactly when the
lock is held. -/
def PollInv (s : PollState) : Prop :=
  s.running = if s.lockHeld then 1 else 0

theorem pollStep_inv {s t : PollState} (h : PollStep s t) (hs : PollInv s) :
    PollInv t := by
  cases h with
  | arrive p r l n c w => exact hs
  | acquire p r n c w =>
    simp only [PollInv] at hs ⊢
    simp at hs
    simp [hs]
  | launch p r n i w => exact hs
  | release p r n i w =>
    simp only [PollInv] at hs ⊢
    simp at hs
    simp [hs]
  | complete p r l n c w₁ w₂ i => exact hs
  | timeout p r l n c w => exact hs

theorem pollReachable_inv {s : PollState} (h : PollReachable s) : PollInv s := by
  induction h with
  | refl => simp [PollInv]
  | tail _ hstep ih => exact pollStep_inv hstep ih

/-- C1 counterexample: a reachable run — trigger 1 acquires, initiates a
query without await, returns and releases; its query is still outstanding
when trigger 2 acquires and initiates its own query. In the reached state
work of pass 0 and work of pass 1 are simultaneously in flight, refuting the
claim that the work of two triggers never overlaps in time. -/
theorem poll_overlap_counterexample :
    PollReachable ⟨0, 1, true, 2, some 1, [1, 0]⟩ ∧
    ¬ singlePassInFlight ⟨0, 1, true, 2, some 1, [1, 0]⟩ := by
  constructor
  · exact Relation.ReflTransGen.tail
      (Relation.ReflTransGen.tail
        (Relation.ReflTransGen.tail
          (Relation.ReflTransGen.tail
            (Relation.ReflTransGen.tail
              (Relation.ReflTransGen.tail
                (Relation.ReflTransGen.tail Relation.ReflTransGen.refl
                  (PollStep.arrive 0 0 false 0 none []))
                (PollStep.acquire 0 0 0 none []))
              (PollStep.launch 0 0 1 0 []))
            (PollStep.release 0 0 1 0 [0]))
          (PollStep.arrive 0 0 false 1 none [0]))
        (PollStep.acquire 0 0 1 none [0]))
      (PollStep.launch 0 0 2 1 [0])
  · intro hsp
    exact absurd (hsp 1 (by decide) 0 (by decide)) (by decide)

/-- C1 (amended): the single named poll lock makes only the locked callbacks
mutually exclusive — in every reachable state at most one locked poll
callback (which logs the poll kind and initiates the pass's query work) is
executing. The per-node query work is initiated without await inside the
locked section, escapes the lock, and the async query work caused by two
triggers can overlap in time. -/
theorem poll_locked_section_exclusive (s : PollState) (h : PollReachable s) :
    s.running ≤ 1 := by
  have hinv := pollReachable_inv h
  simp only [PollInv] at hinv
  rw [hinv]
  cases s.lockHeld <;> simp

/-- C1 amended witness: the state reached by one arrival and its acquisition
has one locked callback executing, and the theorem bounds it by 1. -/
theorem poll_locked_section_exclusive_witness :
    PollReachable ⟨0, 1, true, 1, some 0, []⟩ ∧
    (⟨0, 1, true, 1, some 0, []⟩ : PollState).running ≤ 1 := by
  have hr : PollReachable ⟨0, 1, true, 1, some 0, []⟩ :=
    Relation.ReflTransGen.tail
      (Relation.ReflTransGen.tail Relation.ReflTransGen.refl
        (PollStep.arrive 0 0 false 0 none []))
      (PollStep.acquire 0 0 0 none [])
  exact ⟨hr, poll_locked_section_exclusive _ hr⟩

/-- What one `doPoll` invocation observes of `lock.acquire('poll', fn)`:
either acquisition timed out (`busy`, the callback never ran), or the
callback ran, emitted `effs`, and settled with `res`. -/
inductive LockResult where
  | busy (e : JsErr)
  | ran (effs : List Eff) (res : Except JsErr Unit)

/-- The outcome of one `doPoll` invocation: its effect trace, the settlement
its caller observes, and whether this invocation still holds the poll lock
afterwards (per the lock contract it never does: released on completion and
on exception, never acquired on timeout). -/
structure DoPollResult where
  effs : List Eff
  result : Except JsErr Unit
  lockHeldAfter : Bool

/-- `doPoll(longPoll)` of `nodeserver.js`: the whole `lock.acquire` is inside
`try`/`catch`, and the catch logs `'Error while polling: %s'` with only
`err.message` as argument. -/
def doPoll (_longPoll : Bool) (r : LockResult) : DoPollResult :=
  match r with
  | .busy e =>
    ⟨[Eff.logErrorFmt "Error while polling: %s" [e.message]], .ok (), false⟩
  | .ran effs (.ok _) => ⟨effs, .ok (), false⟩
  | .ran effs (.error e) =>
    ⟨effs ++ [Eff.logErrorFmt "Error while polling: %s" [e.message]],
      .ok (), false⟩

/-- The locked section's own effects when it runs to completion: the poll
kind is logged and, on a short poll, `query()` is invoked on every node
exposing it WITHOUT await (`queryStart` marks only the initiation) — the
callback then returns and the lock is released while each initiated query's
vendor fetch and driver writes are still pending (see the transition system
above). A long poll does nothing further. -/
def doPollBody (longPoll : Bool) (queryable : List String) : List Eff :=
  if longPoll then
    [Eff.logInfo "Long poll", Eff.logInfo "Long Poll: Nothing yet..."]
  else
    [Eff.logInfo "Short poll", Eff.logInfo "Short Poll: Update nodes"] ++
      queryable.map Eff.queryStart

/-- The claim's logging requirement: some error log whose arguments carry
both the message and the stack of the error. -/
def loggedWithStack (effs : List Eff) (e : JsErr) : Prop :=
  ∃ fmt args, Eff.logErrorFmt fmt args ∈ effs ∧
    e.message ∈ args ∧ e.stack ∈ args

/-- C2 counterexample: a lock-acquisition timeout with message "boom" and
stack "stacktrace" is swallowed and logged — but only with its message; no
log entry carries the stack, contrary to the claim's "logged with message and
stack". -/
theorem doPoll_no_stack_logged :
    (doPoll false (.busy ⟨"boom", "stacktrace"⟩)).result = .ok () ∧
    (doPoll false (.busy ⟨"boom", "stacktrace"⟩)).effs =
      [Eff.logErrorFmt "Error while polling: %s" ["boom"]] ∧
    ¬ loggedWithStack (doPoll false (.busy ⟨"boom", "stacktrace"⟩)).effs
      ⟨"boom", "stacktrace"⟩ := by
  refine ⟨rfl, rfl, ?_⟩
  rintro ⟨fmt, args, hmem, _, hstk⟩
  simp only [doPoll, List.mem_singleton, Eff.logErrorFmt.injEq] at hmem
  rw [hmem.2] at hstk
  simp at hstk

/-- C2 (amended): for every input and every behaviour of the locked section,
`doPoll` never propagates an exception: any exception — including a
lock-acquisition timeout (`PollBusy`) — is caught and logged with its message
(the stack is not part of the log call), the triggering pass is dropped, and
the lock is not held by the pass on any exit path. -/
theorem doPoll_never_propagates (longPoll : Bool) (r : LockResult) :
    (doPoll longPoll r).result = .ok () ∧
    (doPoll longPoll r).lockHeldAfter = false ∧
    (∀ e, r = .busy e →
      Eff.logErrorFmt "Error while polling: %s" [e.message] ∈
        (doPoll longPoll r).effs) ∧
    (∀ effs e, r = .ran effs (.error e) →
      Eff.logErrorFmt "Error while polling: %s" [e.message] ∈
        (doPoll longPoll r).effs) := by
  refine ⟨?_, ?_, ?_, ?_⟩
  · cases r with
    | busy e => rfl
    | ran effs res => cases res <;> rfl
  · cases r with
    | busy e => rfl
    | ran effs res => cases res <;> rfl
  · rintro e rfl
    simp [doPoll]
  · rintro effs e rfl
    simp [doPoll]

/-- C2 amended witness: a concrete timed-out short poll is swallowed, leaves
the lock free, and logs the message. -/
theorem doPoll_never_propagates_witness :
    (doPoll false (.busy ⟨"boom2", "trace2"⟩)).result = .ok () ∧
    (doPoll false (.busy ⟨"boom2", "trace2"⟩)).lockHeldAfter = false ∧
    Eff.logErrorFmt "Error while polling: %s" ["boom2"] ∈
      (doPoll false (.busy ⟨"boom2", "trace2"⟩)).effs :=
  ⟨(doPoll_never_propagates false (.busy ⟨"boom2", "trace2"⟩)).1,
   (doPoll_never_propagates false (.busy ⟨"boom2", "trace2"⟩)).2.1,
   (doPoll_never_propagates false (.busy ⟨"boom2", "trace2"⟩)).2.2.1
     ⟨"boom2", "trace2"⟩ rfl⟩

end NuHeat

